import Mathlib

/-!
Verification of the BASE Amplicon ingest module (`corpus/python.py`).

Python strings are modelled as `List Char` (`Str`); the small pure string
helpers (`split`, `strip`, `upper`, `int(...)` success) are modelled by
structurally recursive functions below.  The Django ORM store is modelled by
explicit lists of records inside a `DB` state, and the two ingestion passes
(`add_samples`, `add_md5`) as state-passing functions returning `Except DB DB`
(`.error` marks an abort of the whole pass: `exit()` after a `DataError`, or
an uncaught Python exception).
-/

deriving instance DecidableEq for Except

namespace Amplicon

/-- Python strings are modelled as lists of characters. -/
abbrev Str := List Char

/-- Python `str.strip()`: drop leading and trailing whitespace. -/
def pyStrip (s : Str) : Str :=
  ((s.dropWhile Char.isWhitespace).reverse.dropWhile Char.isWhitespace).reverse

/-- Python `str.upper()` (ASCII, which covers all values in this data set). -/
def pyUpper (s : Str) : Str := s.map Char.toUpper

/-- Helper for `splitWs`: accumulate the current token (reversed). -/
def splitWsAux : Str → Str → List Str
  | [], cur => if cur.isEmpty then [] else [cur.reverse]
  | c :: cs, cur =>
    if c.isWhitespace then
      if cur.isEmpty then splitWsAux cs [] else cur.reverse :: splitWsAux cs []
    else splitWsAux cs (c :: cur)

/-- Python `str.split()` with no argument: split on whitespace runs,
    never producing empty tokens. -/
def splitWs (s : Str) : List Str := splitWsAux s []

/-- Helper for `splitUnder`. -/
def splitUnderAux : Str → Str → List Str
  | [], cur => [cur.reverse]
  | c :: cs, cur =>
    if c = '_' then cur.reverse :: splitUnderAux cs []
    else splitUnderAux cs (c :: cur)

/-- Python `str.split('_')`: split on every underscore, keeping empty tokens. -/
def splitUnder (s : Str) : List Str := splitUnderAux s []

/-- Success predicate of Python 2 `int(token)`: optional surrounding
    whitespace, an optional sign, then a nonempty run of digits. -/
def pyIsInt (s : Str) : Bool :=
  let t := pyStrip s
  let t2 := match t with
    | c :: cs => if c = '-' ∨ c = '+' then cs else c :: cs
    | [] => []
  !t2.isEmpty && t2.all Char.isDigit

/-! ### Value normalizers (`fix_dilution`, `fix_pcr`) -/

/-- The two runtime types a spreadsheet cell can carry here: a float
    (numeric-typed cell) or a unicode string. -/
inductive PyVal where
  | num (x : Int)
  | str (s : Str)
deriving DecidableEq

/-- `fix_dilution`: a float-typed dilution cell (a date-corruption artefact)
    is replaced by the sentinel string `1:10`; strings pass through. -/
def fix_dilution (val : PyVal) : PyVal :=
  match val with
  | .num _ => .str "1:10".toList
  | .str s => .str s

/-- The string carried by a `fix_dilution` result (it is always a string). -/
def fixDilutionStr (v : PyVal) : Str :=
  match fix_dilution v with
  | .str s => s
  | .num _ => []

/-- The dilution value as stored by `add_samples`: `fix_dilution` applied by
    the field extractor, then `.upper()` applied at line 134. -/
def dilutionStored (v : PyVal) : Str := pyUpper (fixDilutionStr v)

/-- `fix_pcr`: strip, then any value other than `P`, `F` or empty
    becomes `X`. -/
def fix_pcr (pcr : Str) : Str :=
  let val := pyStrip pcr
  if ¬ (val = "P".toList ∨ val = "F".toList ∨ val = []) then "X".toList
  else val

/-! ### The md5-manifest filename parser (`parse_md5_file`) -/

/-- The fixed target vocabulary, in the order the code scans it. -/
def targets : List Str := ["16S".toList, "18S".toList, "ITS".toList, "A16S".toList]

/-- `get_bpa_id_from_filename`: the first underscore-token must parse as an
    integer; then the targets are scanned in vocabulary order and the first
    one that occurs anywhere in the token list splits the tokens at its first
    occurrence into (extraction id prefix, rest). -/
def get_bpa_id_from_filename (parts : List Str) : Option (Str × List Str) :=
  match parts with
  | [] => none
  | p0 :: _ =>
    if pyIsInt p0 then
      match targets.find? (fun t => parts.contains t) with
      | some t =>
        let i := parts.findIdx (fun x => x == t)
        some (List.intercalate "_".toList (parts.take i), parts.drop i)
      | none => none
    else none

/-- One parsed file-entry of an md5 manifest (the `file_data` dict). -/
structure FileData where
  md5 : Str
  filename : Str
  extraction_id : Str
  target : Str
  vendor : Str
  index : Str
  well : Str
  sequence : Str
  lane : Str
  run : Str
deriving DecidableEq

/-- Lines 198-233 of `parse_md5_file`: split the filename on underscore,
    derive (extraction id, rest), then decode `rest` positionally; a rest of
    length 7 is the single-index shape, length 8 the dual-index shape whose
    two index parts are joined with a comma; any other length yields no
    entry. -/
def parseEntry (md5 filename : Str) : Option FileData :=
  match get_bpa_id_from_filename (splitUnder filename) with
  | none => none
  | some (extraction_id, rest) =>
    if rest.length = 7 then
      some ⟨md5, filename, extraction_id, rest.getD 0 [], rest.getD 1 [],
            rest.getD 2 [], rest.getD 3 [], rest.getD 4 [], rest.getD 5 [],
            rest.getD 6 []⟩
    else if rest.length = 8 then
      some ⟨md5, filename, extraction_id, rest.getD 0 [], rest.getD 1 [],
            rest.getD 2 [] ++ [','] ++ rest.getD 3 [], rest.getD 4 [],
            rest.getD 5 [], rest.getD 6 [], rest.getD 7 []⟩
    else none

/-- Outcome of processing a single manifest line. -/
inductive LineResult where
  | blank
  | crash
  | skip
  | entry (fd : FileData)
deriving DecidableEq

/-- One iteration of the line loop of `parse_md5_file`: blank lines are
    skipped; `md5, filename = line.split()` raises an uncaught `ValueError`
    (`crash`) unless the line has exactly two fields; a filename the parser
    rejects is logged and skipped. -/
def parseLine (line : Str) : LineResult :=
  if pyStrip line = [] then .blank
  else
    match splitWs (pyStrip line) with
    | [md5, filename] =>
      match parseEntry md5 filename with
      | none => .skip
      | some fd => .entry fd
    | _ => .crash

/-- Fold step over manifest lines: once an exception has escaped
    (`.error`), nothing more is produced. -/
def mdStep (acc : Except Unit (List FileData)) (line : Str) :
    Except Unit (List FileData) :=
  match acc with
  | .error e => .error e
  | .ok data =>
    match parseLine line with
    | .blank => .ok data
    | .skip => .ok data
    | .crash => .error ()
    | .entry fd => .ok (data ++ [fd])

/-- `parse_md5_file`, over the list of lines of the file: an uncaught
    exception on any line makes the whole call return nothing (`.error`). -/
def parse_md5_file (lines : List Str) : Except Unit (List FileData) :=
  lines.foldl mdStep (.ok [])

/-! ### Claim C1 -/

/-- The manifest line from the claim (and from the docstring of
    `parse_md5_file`). -/
def c1line : Str :=
  "cea407dac3f3e7b9afd21b1c096619b7  9486_1_16S_AGRF_ACGTGTACCCAA_A810W_S43_L001_R2_001.fastq.gz".toList

/-- The entries `parse_md5_file` emits for that single line. -/
def c1entries : List FileData :=
  match parse_md5_file [c1line] with
  | .ok l => l
  | .error _ => []

/-- C1 is false as stated: the filename has 8 rest tokens (the trailing
    `R2` and `001.fastq.gz` tokens count), so the dual-index branch runs and
    the single emitted entry carries index `ACGTGTACCCAA,A810W` and well
    `S43`, not index `ACGTGTACCCAA` and well `A810W`. -/
theorem c1_counterexample :
    c1entries.map (fun fd => (fd.extraction_id, fd.target, fd.vendor, fd.index, fd.well)) =
      [("9486_1".toList, "16S".toList, "AGRF".toList,
        "ACGTGTACCCAA,A810W".toList, "S43".toList)] ∧
    ("ACGTGTACCCAA,A810W".toList : Str) ≠ "ACGTGTACCCAA".toList ∧
    ("S43".toList : Str) ≠ "A810W".toList := by
  decide

/-- C1 (amended): for that manifest line `parse_md5_file` emits exactly one
    file-entry, with extraction id `9486_1`, target `16S`, vendor `AGRF`,
    index `ACGTGTACCCAA,A810W`, well `S43`, sequence `L001`, lane `R2` and
    run `001.fastq.gz`. -/
theorem c1_amended :
    parse_md5_file [c1line] =
      .ok [⟨"cea407dac3f3e7b9afd21b1c096619b7".toList,
            "9486_1_16S_AGRF_ACGTGTACCCAA_A810W_S43_L001_R2_001.fastq.gz".toList,
            "9486_1".toList, "16S".toList, "AGRF".toList,
            "ACGTGTACCCAA,A810W".toList, "S43".toList, "L001".toList,
            "R2".toList, "001.fastq.gz".toList⟩] := by
  decide

/-! ### Claim C3 -/

/-- C3 is false as stated: in the token list `5, 18S, 16S, x` the first
    occurrence of a vocabulary token is `18S` at index 1, so the claim
    predicts extraction id `5`; but the code scans the vocabulary in the
    fixed order `16S, 18S, ITS, A16S` and `16S` is present, so it splits at
    the first occurrence of `16S` (index 2) and returns extraction id
    `5_18S`. -/
theorem c3_counterexample :
    get_bpa_id_from_filename ["5".toList, "18S".toList, "16S".toList, "x".toList] =
      some ("5_18S".toList, ["16S".toList, "x".toList]) ∧
    ("5_18S".toList : Str) ≠ "5".toList := by
  decide

/-- C3 (amended): when the first token parses as an integer and `t` is the
    first token in *vocabulary order* (`16S, 18S, ITS, A16S`) that occurs
    anywhere in the token list, the parser splits at the first occurrence
    `i` of that token `t`: the extraction id is `tokens[0:i]` rejoined with
    underscore, the rest is `tokens[i:]`, which starts with `t`, and no
    earlier position holds `t`. -/
theorem c3_amended (parts : List Str) (t : Str)
    (hint : pyIsInt (parts.headD []) = true)
    (ht : targets.find? (fun u => parts.contains u) = some t) :
    get_bpa_id_from_filename parts =
      some (List.intercalate "_".toList (parts.take (parts.findIdx (fun x => x == t))),
            parts.drop (parts.findIdx (fun x => x == t))) ∧
    (parts.drop (parts.findIdx (fun x => x == t))).headD [] = t ∧
    ∀ j, j < parts.findIdx (fun x => x == t) → parts.getD j [] ≠ t := by
  have htmem : t ∈ parts := by
    have hc := List.find?_some ht
    simpa using hc
  have hlt : parts.findIdx (fun x => x == t) < parts.length :=
    List.findIdx_lt_length_of_exists ⟨t, htmem, by simp⟩
  refine ⟨?_, ?_, ?_⟩
  · cases parts with
    | nil => exact absurd hint (by decide)
    | cons p0 ps =>
      simp only [List.headD_cons] at hint
      simp only [get_bpa_id_from_filename]
      rw [if_pos hint, ht]
  · have hget : parts[parts.findIdx (fun x => x == t)] = t := by
      have := List.findIdx_getElem (p := fun x => x == t) (w := hlt)
      simpa using this
    simp [List.getElem?_eq_getElem hlt, hget]
  · intro j hj heq
    have hjl : j < parts.length := Nat.lt_trans hj hlt
    have hne := List.not_of_lt_findIdx (p := fun x => x == t) hj
    rw [List.getD_eq_getElem?_getD, List.getElem?_eq_getElem hjl] at heq
    simp only [Option.getD_some] at heq
    simp [heq] at hne

/-- C3 witness: the amended split on the counterexample tokens, obtained by
    applying the amended theorem at a concrete input. -/
theorem c3_amended_witness :
    get_bpa_id_from_filename ["5".toList, "18S".toList, "16S".toList, "x".toList] =
      some (List.intercalate "_".toList
              ((["5".toList, "18S".toList, "16S".toList, "x".toList] : List Str).take
                ((["5".toList, "18S".toList, "16S".toList, "x".toList] : List Str).findIdx
                  (fun x => x == "16S".toList))),
            (["5".toList, "18S".toList, "16S".toList, "x".toList] : List Str).drop
              ((["5".toList, "18S".toList, "16S".toList, "x".toList] : List Str).findIdx
                (fun x => x == "16S".toList))) :=
  (c3_amended ["5".toList, "18S".toList, "16S".toList, "x".toList] "16S".toList
    (by decide) (by decide)).1

/-! ### Claim C6 -/

/-- A filename the manifest parser rejects: non-integer first token, or no
    vocabulary token anywhere, or a rest-token list (starting at the target)
    whose length is neither 7 nor 8. -/
def badManifestName (filename : Str) : Prop :=
  pyIsInt ((splitUnder filename).headD []) = false ∨
  (∀ t ∈ targets, t ∉ splitUnder filename) ∨
  (∃ b rest, get_bpa_id_from_filename (splitUnder filename) = some (b, rest) ∧
    rest.length ≠ 7 ∧ rest.length ≠ 8)

/-- A rejected filename yields no file-entry. -/
theorem parseEntry_none_of_bad (md5 filename : Str) (hbad : badManifestName filename) :
    parseEntry md5 filename = none := by
  rcases hbad with hA | hB | ⟨b, rest, heq, h7, h8⟩
  · have hg : get_bpa_id_from_filename (splitUnder filename) = none := by
      cases hp : splitUnder filename with
      | nil => rfl
      | cons p0 ps =>
        rw [hp] at hA
        simp only [List.headD_cons] at hA
        simp only [get_bpa_id_from_filename]
        rw [if_neg (by simp [hA])]
    unfold parseEntry
    rw [hg]
  · have hfind : targets.find? (fun u => (splitUnder filename).contains u) = none := by
      rw [List.find?_eq_none]
      intro u hu hcon
      exact hB u hu (by simpa using hcon)
    have hg : get_bpa_id_from_filename (splitUnder filename) = none := by
      cases hp : splitUnder filename with
      | nil => rfl
      | cons p0 ps =>
        rw [hp] at hfind
        by_cases hi : pyIsInt p0 = true
        · simp only [get_bpa_id_from_filename]
          rw [if_pos hi, hfind]
        · simp only [get_bpa_id_from_filename]
          rw [if_neg hi]
    unfold parseEntry
    rw [hg]
  · unfold parseEntry
    rw [heq]
    simp [h7, h8]

/-- A skipped line leaves the accumulator unchanged. -/
theorem mdStep_skip (a : Except Unit (List FileData)) (line : Str)
    (h : parseLine line = .skip) : mdStep a line = a := by
  cases a <;> simp [mdStep, h]

/-- C6: a non-blank manifest line that splits into two fields but whose
    filename has a non-integer first underscore-token, or no
    target-vocabulary token, or a rest-token list (from the target on) of
    length other than 7 or 8, contributes no file-entry, and
    `parse_md5_file` of the whole file equals the parse without that line
    (the parser logs, skips it and continues). -/
theorem c6_rejected_line_skipped (line md5 filename : Str) (pre post : List Str)
    (hsplit : splitWs (pyStrip line) = [md5, filename])
    (hbad : badManifestName filename) :
    parse_md5_file (pre ++ line :: post) = parse_md5_file (pre ++ post) := by
  have hnb : ¬ pyStrip line = [] := by
    intro h
    rw [h] at hsplit
    simp [splitWs, splitWsAux] at hsplit
  have hskip : parseLine line = .skip := by
    unfold parseLine
    rw [if_neg hnb, hsplit]
    show (match parseEntry md5 filename with
          | none => LineResult.skip
          | some fd => LineResult.entry fd) = LineResult.skip
    rw [parseEntry_none_of_bad md5 filename hbad]
  unfold parse_md5_file
  rw [List.foldl_append, List.foldl_append, List.foldl_cons,
    mdStep_skip _ _ hskip]

/-- C6 witness: a line whose filename starts with the non-integer token
    `16S` is skipped; the file parses as if the line were absent. -/
theorem c6_witness :
    parse_md5_file ["ab 16S_1_2".toList] = parse_md5_file [] :=
  c6_rejected_line_skipped "ab 16S_1_2".toList "ab".toList "16S_1_2".toList [] []
    (by decide) (Or.inl (by decide))

/-! ### Claim C10 -/

/-- A non-blank line that does not split into exactly two fields makes the
    tuple unpacking `md5, filename = line.split()` raise. -/
theorem parseLine_crash (line : Str) (h1 : ¬ pyStrip line = [])
    (h2 : (splitWs (pyStrip line)).length ≠ 2) : parseLine line = .crash := by
  unfold parseLine
  rw [if_neg h1]
  rcases hsw : splitWs (pyStrip line) with _ | ⟨a, _ | ⟨b, _ | ⟨c, t⟩⟩⟩
  · rfl
  · rfl
  · exact absurd (by rw [hsw]; rfl) h2
  · rfl

/-- Once a line has crashed, the whole call yields nothing. -/
theorem mdStep_crash (a : Except Unit (List FileData)) (line : Str)
    (h : parseLine line = .crash) : mdStep a line = .error () := by
  cases a <;> simp [mdStep, h]

/-- The error state is absorbing for the rest of the fold. -/
theorem foldl_mdStep_error (l : List Str) : l.foldl mdStep (.error ()) = .error () := by
  induction l with
  | nil => rfl
  | cons x xs ih =>
    rw [List.foldl_cons]
    exact ih

/-- C10: a manifest file containing a non-blank line that does not split
    into exactly two whitespace-separated fields makes `parse_md5_file`
    raise an uncaught `ValueError`, returning no file-entries at all for
    that file. -/
theorem c10_malformed_line_raises (line : Str) (pre post : List Str)
    (h1 : ¬ pyStrip line = [])
    (h2 : (splitWs (pyStrip line)).length ≠ 2) :
    parse_md5_file (pre ++ line :: post) = .error () := by
  unfold parse_md5_file
  rw [List.foldl_append, List.foldl_cons, mdStep_crash _ _ (parseLine_crash line h1 h2),
    foldl_mdStep_error]

/-- C10 witness: a single-field line aborts the whole parse. -/
theorem c10_witness : parse_md5_file ["justonetoken".toList] = .error () :=
  c10_malformed_line_raises "justonetoken".toList [] [] (by decide) (by decide)

/-! ### The database model

The Django ORM tables touched by the ingest are modelled as explicit lists of
records: `AmpliconSequencingMetadata`, `BASESample` (just its BPA id),
`AmpliconRun` and `AmpliconSequenceFile`. -/

/-- The BPA id prefix constant `BPA_ID = "102.100.100."`. -/
def BPA_ID : Str := "102.100.100.".toList

/-- Modelled from the spec: `bpa_id_utils.get_bpa_id` lives in `libs/`,
    which is not under `src/`; per the spec a sample identifier is
    "derived from an input string by prefixing/validating against a known
    format; invalid inputs are rejected (not stored)".  We model validity as
    the BPA prefix `102.100.100.` followed by a nonempty digit string; a
    valid input resolves to itself, an invalid one to `none`. -/
def get_bpa_id (s : Str) : Option Str :=
  if s.take BPA_ID.length = BPA_ID ∧ (s.drop BPA_ID.length).all Char.isDigit ∧
      ¬ (s.drop BPA_ID.length).isEmpty then
    some s
  else none

/-- One extracted spreadsheet row, as produced by `get_data`: the field
    extractor has already applied the per-column cleaners (`fix_pcr` on the
    three PCR columns, `fix_dilution` on the dilution column — hence
    `dilution` is a string — and the 12-character index truncation). -/
structure Entry where
  bpa_id : Str
  sample_extraction_id : Str
  sequencing_facility : Option Str
  target : Str
  index : Option Str
  index1 : Option Str
  index2 : Option Str
  pcr_1_to_10 : Str
  pcr_1_to_100 : Str
  pcr_neat : Str
  dilution : Str
  sequencing_run_number : Str
  flow_cell_id : Str
  reads : Int
  name : Str
  analysis_software_version : Str
  comments : Str
deriving DecidableEq

/-- One `AmpliconSequencingMetadata` row.  `sequencing_facility` is the
    facility name (the `Facility` table is keyed by name and carries nothing
    else); `debug_note` models the pretty-printed source row. -/
structure MetaRecord where
  bpa_id : Str
  target : Str
  sample_extraction_id : Str
  name : Str
  sequencing_facility : Option Str
  index : Str
  pcr_1_to_10 : Str
  pcr_1_to_100 : Str
  pcr_neat : Str
  dilution : Str
  sequencing_run_number : Str
  flow_cell_id : Str
  analysis_software_version : Str
  reads : Int
  comments : Str
  debug_note : Entry
deriving DecidableEq

/-- One `AmpliconRun` row, keyed by its sample. -/
structure RunRecord where
  sample : Str
  sequencing_facility : Str
  flow_cell_id : Str
deriving DecidableEq

/-- One `AmpliconSequenceFile` row, with its links: the key of the owning
    metadata record, and the sample key of the owning run. -/
structure FileRecord where
  meta_bpa_id : Str
  meta_target : Str
  run_sample : Str
  sample : Str
  filename : Str
  analysed : Bool
  md5 : Str
deriving DecidableEq

/-- The persistent store. -/
structure DB where
  metadata : List MetaRecord
  samples : List Str
  runs : List RunRecord
  files : List FileRecord
deriving DecidableEq

/-- The store after `truncate()`. -/
def emptyDB : DB := ⟨[], [], [], []⟩

/-! ### The metadata pass (`add_samples`) -/

/-- An all-blank entry (field defaults of a freshly created row). -/
def defaultEntry : Entry :=
  ⟨[], [], none, [], none, none, none, [], [], [], [], [], [], 0, [], [], []⟩

/-- A freshly `get_or_create`d metadata row: only the key fields are set. -/
def defaultMeta (k t : Str) : MetaRecord :=
  ⟨k, t, [], [], none, [], [], [], [], [], [], [], [], 0, [], defaultEntry⟩

/-- The facility of an optional existing record (fresh rows have none). -/
def facOf : Option MetaRecord → Option Str
  | some m => m.sequencing_facility
  | none => none

/-- Line 127-128: the facility field is only overwritten when the entry
    carries a facility; otherwise the previous value is kept. -/
def facStep (of : Option Str) (e : Entry) : Option Str :=
  match e.sequencing_facility with
  | some f => some f
  | none => of

/-- `_get_index`: strip each of the up-to-three index cells, drop the absent
    and empty ones, and join the rest with a comma-space. -/
def _get_index (e : Entry) : Str :=
  List.intercalate ", ".toList
    ((([e.index, e.index1, e.index2].filterMap id).map pyStrip).filter
      (fun i => !i.isEmpty))

/-- The metadata record written for entry `e` over the previous record (if
    any) for the same `(bpa_id, target)` key — lines 121-140. -/
def metaFromEntry (e : Entry) (old : Option MetaRecord) : MetaRecord :=
  { bpa_id := e.bpa_id
    target := e.target
    sample_extraction_id := e.sample_extraction_id
    name := e.name
    sequencing_facility := facStep (facOf old) e
    index := _get_index e
    pcr_1_to_10 := e.pcr_1_to_10
    pcr_1_to_100 := e.pcr_1_to_100
    pcr_neat := e.pcr_neat
    dilution := pyUpper e.dilution
    sequencing_run_number := e.sequencing_run_number
    flow_cell_id := e.flow_cell_id
    analysis_software_version := e.analysis_software_version
    reads := e.reads
    comments := e.comments
    debug_note := e }

/-- Key test for a metadata record: the `(bpa_id, target)` pair. -/
def keyB (k t : Str) (m : MetaRecord) : Bool :=
  m.bpa_id == k && m.target == t

/-- `AmpliconSequencingMetadata.objects.get_or_create` lookup by key. -/
def findMeta (db : DB) (k t : Str) : Option MetaRecord :=
  db.metadata.find? (keyB k t)

/-- Number of live rows with a given key. -/
def countMeta (db : DB) (k t : Str) : Nat :=
  db.metadata.countP (keyB k t)

/-- Write a record at its key: replace the existing row, or append a new
    one. -/
def putMeta (db : DB) (r : MetaRecord) : DB :=
  if db.metadata.any (keyB r.bpa_id r.target) then
    { db with
        metadata := db.metadata.map (fun m => if keyB r.bpa_id r.target m then r else m) }
  else
    { db with metadata := db.metadata ++ [r] }

/-- The store right after `get_or_create` for entry `e` (before the field
    assignments are saved): the existing row, or a fresh default row. -/
def gocDB (db : DB) (e : Entry) : DB :=
  match findMeta db e.bpa_id e.target with
  | some _ => db
  | none => putMeta db (defaultMeta e.bpa_id e.target)

/-- One iteration of the `add_samples` loop.  `saveFails` is the oracle for
    a `DataError` raised by `metadata.save()`; on such an error the code
    logs and calls `exit()`, modelled as `.error` carrying the store at that
    point. -/
def addSampleStep (saveFails : MetaRecord → Bool) (db : DB) (e : Entry) :
    Except DB DB :=
  match get_bpa_id e.bpa_id with
  | none => .ok db
  | some _ =>
    let r := metaFromEntry e (findMeta db e.bpa_id e.target)
    if saveFails r then .error (gocDB db e) else .ok (putMeta db r)

/-- `add_samples`: upsert a metadata record per extracted entry; entries
    with an invalid BPA id are skipped; a `DataError` on save aborts the
    whole run. -/
def add_samples (saveFails : MetaRecord → Bool) (db : DB) :
    List Entry → Except DB DB
  | [] => .ok db
  | e :: rest =>
    match addSampleStep saveFails db e with
    | .error d => .error d
    | .ok d => add_samples saveFails d rest

/-- The pure successful step (no save failure). -/
def metaStep (db : DB) (e : Entry) : DB :=
  match get_bpa_id e.bpa_id with
  | none => db
  | some _ => putMeta db (metaFromEntry e (findMeta db e.bpa_id e.target))

/-- The pure metadata pass. -/
def runMetaP (db : DB) (l : List Entry) : DB := l.foldl metaStep db

/-- The store carried by an `Except` result. -/
def exState : Except DB DB → DB
  | .ok d => d
  | .error d => d

/-- Whether a pass completed without an uncaught error. -/
def exOk : Except DB DB → Bool
  | .ok _ => true
  | .error _ => false

/-- The metadata pass in the error-free case. -/
def runMeta (db : DB) (l : List Entry) : DB :=
  exState (add_samples (fun _ => false) db l)

theorem add_samples_no_fail (db : DB) (l : List Entry) :
    add_samples (fun _ => false) db l = .ok (runMetaP db l) := by
  induction l generalizing db with
  | nil => rfl
  | cons e rest ih =>
    have hstep : addSampleStep (fun _ => false) db e = .ok (metaStep db e) := by
      unfold addSampleStep metaStep
      cases get_bpa_id e.bpa_id <;> rfl
    simp only [add_samples]
    rw [hstep]
    show add_samples (fun _ => false) (metaStep db e) rest = .ok (runMetaP db (e :: rest))
    rw [ih]
    rfl

theorem runMeta_eq (db : DB) (l : List Entry) : runMeta db l = runMetaP db l := by
  unfold runMeta
  rw [add_samples_no_fail]
  rfl

/-! ### Keyed-upsert lemmas for the metadata store -/

theorem keyB_self (r : MetaRecord) : keyB r.bpa_id r.target r = true := by
  simp [keyB]

theorem find?_map_if_eq {α : Type} (p : α → Bool) (r : α) (hr : p r = true) :
    ∀ l : List α, l.any p = true →
      (l.map (fun m => if p m then r else m)).find? p = some r := by
  intro l
  induction l with
  | nil => intro h; simp at h
  | cons m ms ih =>
    intro h
    by_cases hm : p m = true
    · rw [List.map_cons, if_pos hm, List.find?_cons_of_pos _ hr]
    · rw [List.map_cons, if_neg hm, List.find?_cons_of_neg _ hm]
      apply ih
      rcases List.any_eq_true.mp h with ⟨x, hx, hpx⟩
      rcases List.mem_cons.mp hx with rfl | hx2
      · exact absurd hpx hm
      · exact List.any_eq_true.mpr ⟨x, hx2, hpx⟩

theorem find?_map_if_ne {α : Type} (p q : α → Bool) (r : α) (hqr : q r = false)
    (hpq : ∀ m, p m = true → q m = false) :
    ∀ l : List α, (l.map (fun m => if p m then r else m)).find? q = l.find? q := by
  intro l
  induction l with
  | nil => rfl
  | cons m ms ih =>
    by_cases hm : p m = true
    · rw [List.map_cons, if_pos hm]
      have hqm : q m = false := hpq m hm
      rw [List.find?_cons_of_neg _ (by simp [hqr]),
        List.find?_cons_of_neg _ (by simp [hqm]), ih]
    · rw [List.map_cons, if_neg hm]
      by_cases hq : q m = true
      · rw [List.find?_cons_of_pos _ hq, List.find?_cons_of_pos _ hq]
      · rw [List.find?_cons_of_neg _ hq, List.find?_cons_of_neg _ hq, ih]

theorem countP_map_congr {α : Type} (f : α → α) (q : α → Bool)
    (hf : ∀ m, q (f m) = q m) (l : List α) :
    (l.map f).countP q = l.countP q := by
  induction l with
  | nil => rfl
  | cons m ms ih => rw [List.map_cons, List.countP_cons, List.countP_cons, hf, ih]

theorem findMeta_putMeta_self (db : DB) (r : MetaRecord) :
    findMeta (putMeta db r) r.bpa_id r.target = some r := by
  unfold findMeta putMeta
  by_cases hany : db.metadata.any (keyB r.bpa_id r.target) = true
  · rw [if_pos hany]
    exact find?_map_if_eq _ r (keyB_self r) _ hany
  · rw [if_neg hany]
    have hnone : db.metadata.find? (keyB r.bpa_id r.target) = none := by
      rw [List.find?_eq_none]
      intro x hx hpx
      exact hany (List.any_eq_true.mpr ⟨x, hx, hpx⟩)
    show (db.metadata ++ [r]).find? (keyB r.bpa_id r.target) = some r
    rw [List.find?_append, hnone, Option.none_or, List.find?_cons_of_pos _ (keyB_self r)]

theorem keyB_false_of_ne (k t : Str) (r : MetaRecord)
    (h : ¬(r.bpa_id = k ∧ r.target = t)) : keyB k t r = false := by
  by_cases h1 : r.bpa_id = k
  · by_cases h2 : r.target = t
    · exact absurd ⟨h1, h2⟩ h
    · simp [keyB, h2]
  · simp [keyB, h1]

theorem keyB_key_of_true (k t : Str) (m : MetaRecord) (h : keyB k t m = true) :
    m.bpa_id = k ∧ m.target = t := by
  simpa [keyB] using h

theorem findMeta_putMeta_other (db : DB) (r : MetaRecord) (k t : Str)
    (h : ¬(r.bpa_id = k ∧ r.target = t)) :
    findMeta (putMeta db r) k t = findMeta db k t := by
  have hqr : keyB k t r = false := keyB_false_of_ne k t r h
  have hpq : ∀ m, keyB r.bpa_id r.target m = true → keyB k t m = false := by
    intro m hm
    rcases keyB_key_of_true _ _ _ hm with ⟨hb, ht⟩
    apply keyB_false_of_ne
    intro hc
    exact h ⟨by rw [← hb, hc.1], by rw [← ht, hc.2]⟩
  unfold findMeta putMeta
  by_cases hany : db.metadata.any (keyB r.bpa_id r.target) = true
  · rw [if_pos hany]
    exact find?_map_if_ne _ _ r hqr hpq _
  · rw [if_neg hany]
    show (db.metadata ++ [r]).find? (keyB k t) = db.metadata.find? (keyB k t)
    rw [List.find?_append]
    have h1 : List.find? (keyB k t) [r] = none := by simp [hqr]
    rw [h1, Option.or_none]

theorem countMeta_putMeta_self (db : DB) (r : MetaRecord) :
    countMeta (putMeta db r) r.bpa_id r.target =
      if countMeta db r.bpa_id r.target = 0 then 1
      else countMeta db r.bpa_id r.target := by
  unfold countMeta putMeta
  by_cases hany : db.metadata.any (keyB r.bpa_id r.target) = true
  · rw [if_pos hany]
    have hf : ∀ m, keyB r.bpa_id r.target
        (if keyB r.bpa_id r.target m = true then r else m) =
        keyB r.bpa_id r.target m := by
      intro m
      by_cases hm : keyB r.bpa_id r.target m = true
      · rw [if_pos hm, keyB_self r, hm]
      · rw [if_neg hm]
    have hcnt := countP_map_congr
      (fun m => if keyB r.bpa_id r.target m then r else m)
      (keyB r.bpa_id r.target) hf db.metadata
    rw [hcnt]
    have hne : db.metadata.countP (keyB r.bpa_id r.target) ≠ 0 := by
      rcases List.any_eq_true.mp hany with ⟨x, hx, hpx⟩
      have hpos : 0 < db.metadata.countP (keyB r.bpa_id r.target) :=
        List.countP_pos_iff.mpr ⟨x, hx, hpx⟩
      omega
    rw [if_neg hne]
  · rw [if_neg hany]
    have h0 : db.metadata.countP (keyB r.bpa_id r.target) = 0 := by
      rw [List.countP_eq_zero]
      intro x hx hpx
      exact hany (List.any_eq_true.mpr ⟨x, hx, hpx⟩)
    show (db.metadata ++ [r]).countP (keyB r.bpa_id r.target) = _
    rw [List.countP_append, h0, List.countP_singleton, if_pos (keyB_self r)]
    rfl

theorem countMeta_putMeta_other (db : DB) (r : MetaRecord) (k t : Str)
    (h : ¬(r.bpa_id = k ∧ r.target = t)) :
    countMeta (putMeta db r) k t = countMeta db k t := by
  have hqr : keyB k t r = false := keyB_false_of_ne k t r h
  unfold countMeta putMeta
  by_cases hany : db.metadata.any (keyB r.bpa_id r.target) = true
  · rw [if_pos hany]
    have hf : ∀ m, keyB k t
        (if keyB r.bpa_id r.target m = true then r else m) = keyB k t m := by
      intro m
      by_cases hm : keyB r.bpa_id r.target m = true
      · rw [if_pos hm, hqr]
        rcases keyB_key_of_true _ _ _ hm with ⟨hb, ht⟩
        have hmf : keyB k t m = false := by
          apply keyB_false_of_ne
          intro hc
          exact h ⟨by rw [← hb, hc.1], by rw [← ht, hc.2]⟩
        rw [hmf]
      · rw [if_neg hm]
    exact countP_map_congr _ _ hf db.metadata
  · rw [if_neg hany]
    show (db.metadata ++ [r]).countP (keyB k t) = _
    rw [List.countP_append, List.countP_singleton, if_neg (by simp [hqr])]
    simp

@[simp] theorem metaFromEntry_bpa_id (e : Entry) (old : Option MetaRecord) :
    (metaFromEntry e old).bpa_id = e.bpa_id := rfl

@[simp] theorem metaFromEntry_target (e : Entry) (old : Option MetaRecord) :
    (metaFromEntry e old).target = e.target := rfl

/-- Which entries touch the metadata row keyed `(k, t)`: valid BPA id and
    matching key. -/
def relevantB (k t : Str) (e : Entry) : Bool :=
  (get_bpa_id e.bpa_id).isSome && e.bpa_id == k && e.target == t

theorem findMeta_metaStep (db : DB) (e : Entry) (k t : Str) :
    findMeta (metaStep db e) k t =
      if relevantB k t e then some (metaFromEntry e (findMeta db k t))
      else findMeta db k t := by
  unfold metaStep
  cases hg : get_bpa_id e.bpa_id with
  | none =>
    have hrel : relevantB k t e = false := by simp [relevantB, hg]
    rw [if_neg (by simp [hrel])]
  | some b =>
    by_cases hk : e.bpa_id = k ∧ e.target = t
    · obtain ⟨hk1, hk2⟩ := hk
      subst hk1
      subst hk2
      have hrel : relevantB e.bpa_id e.target e = true := by simp [relevantB, hg]
      rw [if_pos hrel]
      have hself := findMeta_putMeta_self db
        (metaFromEntry e (findMeta db e.bpa_id e.target))
      rw [metaFromEntry_bpa_id, metaFromEntry_target] at hself
      exact hself
    · have hrel : relevantB k t e = false := by
        rcases not_and_or.mp hk with h1 | h1 <;> simp [relevantB, h1]
      rw [if_neg (by simp [hrel])]
      apply findMeta_putMeta_other
      intro hc
      exact hk ⟨by simpa using hc.1, by simpa using hc.2⟩

theorem countMeta_metaStep (db : DB) (e : Entry) (k t : Str) :
    countMeta (metaStep db e) k t =
      if relevantB k t e then
        (if countMeta db k t = 0 then 1 else countMeta db k t)
      else countMeta db k t := by
  unfold metaStep
  cases hg : get_bpa_id e.bpa_id with
  | none =>
    have hrel : relevantB k t e = false := by simp [relevantB, hg]
    rw [if_neg (by simp [hrel])]
  | some b =>
    by_cases hk : e.bpa_id = k ∧ e.target = t
    · obtain ⟨hk1, hk2⟩ := hk
      subst hk1
      subst hk2
      have hrel : relevantB e.bpa_id e.target e = true := by simp [relevantB, hg]
      rw [if_pos hrel]
      have hself := countMeta_putMeta_self db
        (metaFromEntry e (findMeta db e.bpa_id e.target))
      rw [metaFromEntry_bpa_id, metaFromEntry_target] at hself
      exact hself
    · have hrel : relevantB k t e = false := by
        rcases not_and_or.mp hk with h1 | h1 <;> simp [relevantB, h1]
      rw [if_neg (by simp [hrel])]
      apply countMeta_putMeta_other
      intro hc
      exact hk ⟨by simpa using hc.1, by simpa using hc.2⟩

/-- The effect of one loop entry on the row at key `(k, t)`. -/
def gFold (k t : Str) (old : Option MetaRecord) (e : Entry) : Option MetaRecord :=
  if relevantB k t e then some (metaFromEntry e old) else old

theorem findMeta_runMetaP (db : DB) (l : List Entry) (k t : Str) :
    findMeta (runMetaP db l) k t = l.foldl (gFold k t) (findMeta db k t) := by
  induction l generalizing db with
  | nil => rfl
  | cons e rest ih =>
    show findMeta (runMetaP (metaStep db e) rest) k t = _
    rw [ih, List.foldl_cons]
    congr 1
    rw [findMeta_metaStep]
    rfl

theorem countMeta_runMetaP (db : DB) (l : List Entry) (k t : Str) :
    countMeta (runMetaP db l) k t =
      if l.filter (relevantB k t) = [] then countMeta db k t
      else (if countMeta db k t = 0 then 1 else countMeta db k t) := by
  induction l generalizing db with
  | nil => simp [runMetaP]
  | cons e rest ih =>
    show countMeta (runMetaP (metaStep db e) rest) k t = _
    rw [ih]
    by_cases hrel : relevantB k t e = true
    · rw [List.filter_cons_of_pos hrel, countMeta_metaStep, if_pos hrel]
      have hcons : ¬(e :: rest.filter (relevantB k t) = []) := by simp
      rw [if_neg hcons]
      by_cases hfr : rest.filter (relevantB k t) = []
      · rw [if_pos hfr]
      · rw [if_neg hfr]
        have hX : (if countMeta db k t = 0 then 1 else countMeta db k t) ≠ 0 := by
          by_cases h0 : countMeta db k t = 0
          · rw [if_pos h0]
            omega
          · rw [if_neg h0]
            omega
        rw [if_neg hX]
    · rw [List.filter_cons_of_neg hrel, countMeta_metaStep, if_neg hrel]

theorem foldl_gFold_filter (k t : Str) (l : List Entry) (s : Option MetaRecord) :
    l.foldl (gFold k t) s =
      (l.filter (relevantB k t)).foldl (fun old e2 => some (metaFromEntry e2 old)) s := by
  induction l generalizing s with
  | nil => rfl
  | cons e rest ih =>
    by_cases hrel : relevantB k t e = true
    · rw [List.foldl_cons, List.filter_cons_of_pos hrel, List.foldl_cons, ih]
      congr 1
      show gFold k t s e = some (metaFromEntry e s)
      unfold gFold
      rw [if_pos hrel]
    · rw [List.foldl_cons, List.filter_cons_of_neg hrel, ih]
      congr 1
      show gFold k t s e = s
      unfold gFold
      rw [if_neg hrel]

theorem foldl_upsert_getLast :
    ∀ (l : List Entry) (e : Entry) (s : Option MetaRecord),
      l.getLast? = some e →
      l.foldl (fun old e2 => some (metaFromEntry e2 old)) s =
        some { metaFromEntry e none with
                 sequencing_facility := l.foldl facStep (facOf s) } := by
  intro l
  induction l with
  | nil =>
    intro e s h
    simp at h
  | cons x rest ih =>
    intro e s h
    cases rest with
    | nil =>
      simp at h
      subst h
      rfl
    | cons y rest2 =>
      rw [List.getLast?_cons_cons] at h
      simp only [List.foldl_cons]
      exact ih e (some (metaFromEntry x s)) h

theorem foldl_facStep_refold (l : List Entry) :
    ∀ s : Option Str, l.foldl facStep (l.foldl facStep s) = l.foldl facStep s := by
  induction l using List.reverseRecOn with
  | nil => intro s; rfl
  | append_singleton l0 x ih =>
    intro s
    simp only [List.foldl_append, List.foldl_cons, List.foldl_nil]
    cases hx : x.sequencing_facility with
    | some f =>
      have hstep : ∀ o, facStep o x = some f := fun o => by
        unfold facStep
        rw [hx]
      simp only [hstep]
    | none =>
      have hstep : ∀ o, facStep o x = o := fun o => by
        unfold facStep
        rw [hx]
      simp only [hstep]
      exact ih s

/-- The facility value that survives the metadata pass for key `(k, t)`:
    the facility of the last relevant entry that has one (none if no
    relevant entry has one). -/
def lastFacility (data : List Entry) (k t : Str) : Option Str :=
  (data.filter (relevantB k t)).foldl facStep none

/-! ### Claims C7 and C9 -/

/-- A valid spreadsheet entry used by concrete instances below. -/
def sampleEntry : Entry :=
  ⟨"102.100.100.7".toList, "7_1".toList, none, "16S".toList, none, none, none,
   "P".toList, "F".toList, [], "1:10".toList, [], [], 0, [], [], []⟩

/-- `sampleEntry` with a facility set. -/
def sampleEntryFac : Entry :=
  { sampleEntry with sequencing_facility := some "AGRF".toList }

/-- C7 is false as stated: with two records for the same
    `(sample, target)` pair — the first carrying facility `AGRF`, the last
    carrying no facility — running the metadata pass twice stores facility
    `AGRF`, not the last-processed record's (absent) facility value: the
    facility field is only overwritten when the incoming value is not None,
    so it is not last-write-wins. -/
theorem c7_counterexample :
    (findMeta (runMeta (runMeta emptyDB [sampleEntryFac, sampleEntry])
        [sampleEntryFac, sampleEntry]) "102.100.100.7".toList "16S".toList).map
      (fun m => m.sequencing_facility) = some (some "AGRF".toList) ∧
    sampleEntry.sequencing_facility = none := by
  constructor
  · rfl
  · rfl

/-- C7 (amended): running the metadata pass twice from a truncated store
    leaves exactly one `SequencingMetadataRecord` per `(sample identifier,
    target)` pair that has a valid entry (and none otherwise); that record
    carries the field values of the last-processed record for the pair,
    except `sequencing_facility`, which equals the facility of the last
    record for the pair that has one (and is unset if none has one). -/
theorem c7_amended (data : List Entry) (k t : Str) :
    countMeta (runMeta (runMeta emptyDB data) data) k t =
      (if data.filter (relevantB k t) = [] then 0 else 1) ∧
    findMeta (runMeta (runMeta emptyDB data) data) k t =
      ((data.filter (relevantB k t)).getLast?).map
        (fun e => { metaFromEntry e none with
                      sequencing_facility := lastFacility data k t }) := by
  rw [runMeta_eq, runMeta_eq]
  by_cases hfe : data.filter (relevantB k t) = []
  · constructor
    · rw [countMeta_runMetaP, if_pos hfe, countMeta_runMetaP, if_pos hfe,
        if_pos hfe]
      rfl
    · rw [findMeta_runMetaP, findMeta_runMetaP, foldl_gFold_filter,
        foldl_gFold_filter, hfe]
      rfl
  · cases hlast : (data.filter (relevantB k t)).getLast? with
    | none => exact absurd (List.getLast?_eq_none_iff.mp hlast) hfe
    | some e =>
      have h1 : countMeta (runMetaP emptyDB data) k t = 1 := by
        rw [countMeta_runMetaP, if_neg hfe]
        rfl
      constructor
      · rw [countMeta_runMetaP, if_neg hfe, h1, if_neg hfe]
        rfl
      · rw [findMeta_runMetaP, findMeta_runMetaP]
        simp only [foldl_gFold_filter]
        have hfe0 : findMeta emptyDB k t = none := rfl
        rw [hfe0]
        rw [foldl_upsert_getLast _ e none hlast]
        rw [foldl_upsert_getLast _ e _ hlast]
        show some { metaFromEntry e none with
            sequencing_facility := (data.filter (relevantB k t)).foldl facStep
              ((data.filter (relevantB k t)).foldl facStep none) } = _
        rw [foldl_facStep_refold]
        rfl

/-! ### The manifest pass (`add_md5`) -/

/-- The Django lookup filter of line 269-271:
    `AmpliconSequencingMetadata.objects.get(target=…, sample_extraction_id=…)`. -/
def mdMatch (fd : FileData) (m : MetaRecord) : Bool :=
  m.target == fd.target && m.sample_extraction_id == fd.extraction_id

/-- The sample identifier `add_md5` re-derives for a file-entry:
    `BPA_ID + extraction_id.split('_')[0]`. -/
def sampleIdxOf (fd : FileData) : Str :=
  BPA_ID ++ (splitUnder fd.extraction_id).headD []

/-- `BASESample.objects.get_or_create(bpa_id=…)`. -/
def putSample (db : DB) (sid : Str) : DB :=
  if db.samples.contains sid then db
  else { db with samples := db.samples ++ [sid] }

/-- `AmpliconRun.objects.get_or_create(sample=…)` followed by the facility
    and flow-cell assignments and `save()`. -/
def putRun (db : DB) (sid vendor well : Str) : DB :=
  if db.runs.any (fun r => r.sample == sid) then
    { db with
        runs := db.runs.map (fun r =>
          if r.sample == sid then
            { r with sequencing_facility := vendor, flow_cell_id := well }
          else r) }
  else { db with runs := db.runs ++ [⟨sid, vendor, well⟩] }

/-- Line 272-274: write the vendor into the matched metadata record's
    facility field and save it. -/
def facUpd (fd : FileData) (m2 : MetaRecord) : MetaRecord :=
  { m2 with sequencing_facility := some fd.vendor }

/-- The store after the matched metadata record's facility update. -/
def md5MetaUpdate (db : DB) (fd : FileData) : DB :=
  { db with
      metadata := db.metadata.map (fun m2 =>
        if mdMatch fd m2 then facUpd fd m2 else m2) }

/-- The store after one successfully processed file-entry: metadata facility
    updated, sample and run resolved/created, and a new
    `AmpliconSequenceFile` row appended. -/
def md5Success (db : DB) (fd : FileData) (m : MetaRecord) (sid : Str) : DB :=
  let db3 := putRun (putSample (md5MetaUpdate db fd) sid) sid fd.vendor fd.well
  { db3 with
      files := db3.files ++ [⟨m.bpa_id, m.target, sid, sid, fd.filename, true, fd.md5⟩] }

/-- One iteration of the `add_md5` loop (lines 265-285).  A missing metadata
    record (`DoesNotExist`) is caught: warn and continue.  Two or more
    matching records make Django's `.get` raise `MultipleObjectsReturned`,
    which is not caught.  If the re-derived sample identifier is invalid,
    `get_base_sample` returns `None`, `get_run` returns `None`, and the
    unconditional `amplicon_run.sample` dereference raises an uncaught
    `AttributeError` — modelled as `.error` (note the metadata facility
    update of line 272-274 has already been saved at that point). -/
def addMd5Step (db : DB) (fd : FileData) : Except DB DB :=
  match db.metadata.filter (mdMatch fd) with
  | [] => .ok db
  | [m] =>
    let db1 := md5MetaUpdate db fd
    match get_bpa_id (sampleIdxOf fd) with
    | none => .error db1
    | some sid => .ok (md5Success db fd m sid)
  | _ :: _ :: _ => .error db

/-- `add_md5` over the parsed file-entries. -/
def add_md5 (db : DB) : List FileData → Except DB DB
  | [] => .ok db
  | fd :: rest =>
    match addMd5Step db fd with
    | .error d => .error d
    | .ok d => add_md5 d rest

/-- Running the manifest pass twice over the same data. -/
def add_md5_twice (db : DB) (data : List FileData) : Except DB DB :=
  match add_md5 db data with
  | .ok d => add_md5 d data
  | .error d => .error d

/-- Number of `AmpliconSequenceFile` rows carrying a given filename. -/
def countFiles (db : DB) (f : Str) : Nat :=
  db.files.countP (fun r => r.filename == f)

@[simp] theorem putSample_metadata (db : DB) (sid : Str) :
    (putSample db sid).metadata = db.metadata := by
  unfold putSample
  split <;> rfl

@[simp] theorem putSample_files (db : DB) (sid : Str) :
    (putSample db sid).files = db.files := by
  unfold putSample
  split <;> rfl

@[simp] theorem putRun_metadata (db : DB) (sid v w : Str) :
    (putRun db sid v w).metadata = db.metadata := by
  unfold putRun
  split <;> rfl

@[simp] theorem putRun_files (db : DB) (sid v w : Str) :
    (putRun db sid v w).files = db.files := by
  unfold putRun
  split <;> rfl

theorem md5Success_metadata (db : DB) (fd : FileData) (m : MetaRecord) (sid : Str) :
    (md5Success db fd m sid).metadata =
      db.metadata.map (fun m2 => if mdMatch fd m2 then facUpd fd m2 else m2) := by
  unfold md5Success
  show (putRun (putSample (md5MetaUpdate db fd) sid) sid fd.vendor fd.well).metadata = _
  rw [putRun_metadata, putSample_metadata]
  rfl

theorem md5Success_files (db : DB) (fd : FileData) (m : MetaRecord) (sid : Str) :
    (md5Success db fd m sid).files =
      db.files ++ [⟨m.bpa_id, m.target, sid, sid, fd.filename, true, fd.md5⟩] := by
  unfold md5Success
  show (putRun (putSample (md5MetaUpdate db fd) sid) sid fd.vendor fd.well).files ++ _ = _
  rw [putRun_files, putSample_files]
  rfl

theorem mdMatch_facUpd (fd : FileData) (m2 : MetaRecord) :
    mdMatch fd (facUpd fd m2) = mdMatch fd m2 := rfl

theorem filter_mdMatch_map (fd : FileData) (l : List MetaRecord) :
    (l.map (fun m2 => if mdMatch fd m2 then facUpd fd m2 else m2)).filter (mdMatch fd) =
      (l.filter (mdMatch fd)).map (fun m2 => if mdMatch fd m2 then facUpd fd m2 else m2) := by
  induction l with
  | nil => rfl
  | cons m2 ms ih =>
    by_cases hm : mdMatch fd m2 = true
    · rw [List.map_cons, if_pos hm,
        List.filter_cons_of_pos (by rw [mdMatch_facUpd]; exact hm),
        List.filter_cons_of_pos hm, List.map_cons, if_pos hm, ih]
    · rw [List.map_cons, if_neg hm, List.filter_cons_of_neg hm,
        List.filter_cons_of_neg hm, ih]

theorem addMd5Step_resolved (db : DB) (fd : FileData) (m : MetaRecord) (sid : Str)
    (h1 : db.metadata.filter (mdMatch fd) = [m])
    (hs : get_bpa_id (sampleIdxOf fd) = some sid) :
    addMd5Step db fd = .ok (md5Success db fd m sid) := by
  unfold addMd5Step
  rw [h1, hs]

theorem add_md5_single (db : DB) (fd : FileData) (m : MetaRecord) (sid : Str)
    (h1 : db.metadata.filter (mdMatch fd) = [m])
    (hs : get_bpa_id (sampleIdxOf fd) = some sid) :
    add_md5 db [fd] = .ok (md5Success db fd m sid) := by
  simp only [add_md5]
  rw [addMd5Step_resolved db fd m sid h1 hs]

/-! ### Claim C8 -/

/-- C8: when a single parsed file-entry resolves (exactly one matching
    metadata record, valid re-derived sample identifier), running the
    manifest pass twice over it without truncation creates two
    `SequencedFileEntry` rows with its filename — file-entry creation
    performs no de-duplication. -/
theorem c8_no_dedup (db : DB) (fd : FileData) (m : MetaRecord)
    (h1 : db.metadata.filter (mdMatch fd) = [m])
    (h2 : (get_bpa_id (sampleIdxOf fd)).isSome = true) :
    exOk (add_md5_twice db [fd]) = true ∧
    countFiles (exState (add_md5_twice db [fd])) fd.filename =
      countFiles db fd.filename + 2 := by
  obtain ⟨sid, hs⟩ := Option.isSome_iff_exists.mp h2
  have hrun1 := add_md5_single db fd m sid h1 hs
  have hmm : mdMatch fd m = true := by
    have hmem : m ∈ db.metadata.filter (mdMatch fd) := by
      rw [h1]
      exact List.mem_cons_self m []
    exact (List.mem_filter.mp hmem).2
  have h1b : (md5Success db fd m sid).metadata.filter (mdMatch fd) = [facUpd fd m] := by
    rw [md5Success_metadata, filter_mdMatch_map, h1, List.map_cons, if_pos hmm]
    rfl
  have hrun2 := add_md5_single (md5Success db fd m sid) fd (facUpd fd m) sid h1b hs
  have htw : add_md5_twice db [fd] =
      .ok (md5Success (md5Success db fd m sid) fd (facUpd fd m) sid) := by
    unfold add_md5_twice
    rw [hrun1]
    exact hrun2
  rw [htw]
  constructor
  · rfl
  · show countFiles (md5Success (md5Success db fd m sid) fd (facUpd fd m) sid)
        fd.filename = _
    unfold countFiles
    rw [md5Success_files, md5Success_files, List.countP_append, List.countP_append,
      List.countP_singleton, List.countP_singleton]
    simp

/-- Metadata record and store used in the C8 witness. -/
def c8meta : MetaRecord :=
  { defaultMeta "102.100.100.9486".toList "16S".toList with
      sample_extraction_id := "9486_1".toList }

/-- Store holding one metadata record for extraction id `9486_1`. -/
def c8db : DB := { emptyDB with metadata := [c8meta] }

/-- A parsed file-entry referencing that record. -/
def c8fd : FileData :=
  ⟨"cea407dac3f3e7b9afd21b1c096619b7".toList,
   "9486_1_16S_AGRF_TTCC_A1W_S1_L001_R1".toList, "9486_1".toList,
   "16S".toList, "AGRF".toList, "TTCC".toList, "A1W".toList, "S1".toList,
   "L001".toList, "R1".toList⟩

/-- C8 witness: two rows for the same filename after a double run. -/
theorem c8_witness :
    exOk (add_md5_twice c8db [c8fd]) = true ∧
    countFiles (exState (add_md5_twice c8db [c8fd])) c8fd.filename =
      countFiles c8db c8fd.filename + 2 :=
  c8_no_dedup c8db c8fd c8meta (by decide) (by decide)

/-! ### Claim C2 -/

/-- Metadata record whose extraction id starts with a negative numeral. -/
def c2meta : MetaRecord :=
  { defaultMeta "102.100.100.9".toList "16S".toList with
      sample_extraction_id := "-5_1".toList }

/-- Store holding that record. -/
def c2db : DB := { emptyDB with metadata := [c2meta] }

/-- A manifest line whose filename's first token `-5` passes the `int()`
    check of the parser but yields the invalid sample id `102.100.100.-5`. -/
def c2line : Str :=
  "d41d8cd98f00b204e9800998ecf8427e  -5_1_16S_AGRF_IDX_A1W_S1_L001_R1".toList

/-- The file-entry the parser emits for that line. -/
def c2fd : FileData :=
  ⟨"d41d8cd98f00b204e9800998ecf8427e".toList,
   "-5_1_16S_AGRF_IDX_A1W_S1_L001_R1".toList, "-5_1".toList, "16S".toList,
   "AGRF".toList, "IDX".toList, "A1W".toList, "S1".toList, "L001".toList,
   "R1".toList⟩

/-- C2's failing input: the entry parses, its metadata record resolves, but
    the sample identifier is invalid, so `get_run` returns `None` and the
    unconditional `amplicon_run.sample` dereference raises an uncaught
    `AttributeError`: the pass aborts (`exOk = false`) instead of dropping
    the entry and continuing; no file row is created. -/
theorem c2_crash_on_unresolved_run :
    parse_md5_file [c2line] = .ok [c2fd] ∧
    exOk (add_md5 c2db [c2fd]) = false ∧
    (exState (add_md5 c2db [c2fd])).files = [] := by
  refine ⟨by decide, by decide, by decide⟩

/-! ### Claim C9 -/

/-- C9: if saving the metadata record of entry `e` raises a `DataError`,
    the metadata pass aborts immediately (`exit()` after logging): the
    result is an error state that does not depend on the remaining entries,
    which are never processed. -/
theorem c9_fatal_abort (saveFails : MetaRecord → Bool) (db : DB) (e : Entry)
    (rest : List Entry) (b : Str)
    (h1 : get_bpa_id e.bpa_id = some b)
    (h2 : saveFails (metaFromEntry e (findMeta db e.bpa_id e.target)) = true) :
    add_samples saveFails db (e :: rest) = .error (gocDB db e) := by
  simp only [add_samples]
  have hstep : addSampleStep saveFails db e = .error (gocDB db e) := by
    unfold addSampleStep
    rw [h1]
    show (if saveFails (metaFromEntry e (findMeta db e.bpa_id e.target)) = true
          then Except.error (gocDB db e)
          else Except.ok (putMeta db (metaFromEntry e (findMeta db e.bpa_id e.target))))
        = Except.error (gocDB db e)
    rw [if_pos h2]
  rw [hstep]

/-- An entry for a different sample, used to show it is never processed. -/
def c9nextEntry : Entry := { sampleEntry with bpa_id := "102.100.100.8".toList }

/-- C9 witness: with a failing save on the first (valid) entry, the pass
    stops at the `get_or_create` state; the following entry leaves no
    trace. -/
theorem c9_witness :
    add_samples (fun _ => true) emptyDB [sampleEntry, c9nextEntry] =
      .error (gocDB emptyDB sampleEntry) :=
  c9_fatal_abort (fun _ => true) emptyDB sampleEntry [c9nextEntry]
    "102.100.100.7".toList (by decide) rfl

/-! ### Claims C4 and C5 -/

/-- C4: a numeric-typed dilution value is stored as exactly `1:10`; a
    string-typed one is stored as the uppercased original (the store step of
    `add_samples` uppercases the extractor's `fix_dilution` output). -/
theorem c4_dilution (x : Int) (s : Str) :
    dilutionStored (PyVal.num x) = "1:10".toList ∧
    dilutionStored (PyVal.str s) = pyUpper s ∧
    ∀ (e : Entry) (old : Option MetaRecord),
      (metaFromEntry e old).dilution = pyUpper e.dilution := by
  have h110 : pyUpper "1:10".toList = "1:10".toList := by decide
  exact ⟨h110, rfl, fun e old => rfl⟩

/-- C5: `fix_pcr` returns the trimmed value when it is `P`, `F` or empty,
    and `X` otherwise. -/
theorem c5_pcr (p : Str) :
    fix_pcr p =
      if pyStrip p = "P".toList ∨ pyStrip p = "F".toList ∨ pyStrip p = []
      then pyStrip p else "X".toList := by
  by_cases h : pyStrip p = "P".toList ∨ pyStrip p = "F".toList ∨ pyStrip p = []
  · show (if ¬ (pyStrip p = "P".toList ∨ pyStrip p = "F".toList ∨ pyStrip p = [])
          then "X".toList else pyStrip p) = _
    rw [if_neg (not_not_intro h), if_pos h]
  · show (if ¬ (pyStrip p = "P".toList ∨ pyStrip p = "F".toList ∨ pyStrip p = [])
          then "X".toList else pyStrip p) = _
    rw [if_pos h, if_neg h]

end Amplicon
